import Mathlib

/-!
# Smart Cart — verification of the Cart-Device Binding & RFID Event Reconciliation Engine

Shallow embedding of the smart-cart repository's cart, scan-deduplication, retry,
checkout and notification-fanout logic, together with theorems settling the frozen
claims about the system.

Sources embedded:
* `client/src/pages/RfidSimulator.tsx` — simulated cart operations
  (`addToSimulatedCart`, `removeFromSimulatedCart`, `calculateTotal`);
* `client/src/context/CartContext.tsx` — `cartReducer`, the `rfidScan` error path,
  the `handleCartUpdate` socket listener, the 502-retry loop of `handleDeviceRequest`,
  and `checkout`;
* `client/src/context/ProductContext.tsx` — the `SocketService` listener registry
  (`on`, `off`, `triggerListeners`);
* `arduino/NodeMCU_RFID_HTTP.ino` — the scan-cooldown logic of `loop` and the
  retry loop of `sendRFIDData` / `attemptSendRFIDData`;
* `arduino/NodeMCU_RFID_WebSocket.ino` — the scan-cooldown logic of `loop` and the
  LCD cart-display handlers (`handleCartConnected`, `handleProductScanned`,
  `handleCheckoutComplete`).

Machine floats of the source (JS numbers, C++ `float`) are modelled as `ℚ`;
millisecond clocks as `ℕ`.
-/

namespace SmartCart

/-! ## Data model (client/src/types: `Product`, `CartItem`) -/

/-- A catalog product: id, name, unit price, RFID tag, available stock. -/
structure Product where
  id : String
  name : String
  price : ℚ
  rfidTag : String
  quantity : Nat
deriving DecidableEq

/-- A cart line as kept by the RFID simulator page: the product snapshot fields
plus the line quantity (`CartItem extends Product` with `quantity` overridden). -/
structure CartItem where
  id : String
  name : String
  price : ℚ
  rfidTag : String
  quantity : Nat
deriving DecidableEq

/-! ## Simulated cart operations (`RfidSimulator.tsx`) -/

/-- `addToSimulatedCart` (RfidSimulator.tsx lines 100–114): if a line with the
product's id exists, increment its quantity, otherwise append
`{ ...product, quantity: 1 }`. -/
def addToSimulatedCart (product : Product) (cart : List CartItem) : List CartItem :=
  match cart.find? (fun item => item.id == product.id) with
  | some _ =>
      cart.map (fun item =>
        if item.id == product.id then { item with quantity := item.quantity + 1 } else item)
  | none =>
      cart ++ [⟨product.id, product.name, product.price, product.rfidTag, 1⟩]

/-- `removeFromSimulatedCart` (RfidSimulator.tsx lines 117–131): if a line with the
id exists with quantity above one, decrement it; otherwise filter the line out. -/
def removeFromSimulatedCart (productId : String) (cart : List CartItem) : List CartItem :=
  match cart.find? (fun item => item.id == productId) with
  | some existingItem =>
      if 1 < existingItem.quantity then
        cart.map (fun item =>
          if item.id == productId then { item with quantity := item.quantity - 1 } else item)
      else
        cart.filter (fun item => item.id != productId)
  | none => cart.filter (fun item => item.id != productId)

/-- `calculateTotal` (RfidSimulator.tsx lines 134–136):
`cart.reduce((total, item) => total + item.price * item.quantity, 0)`. -/
def calculateTotal (cart : List CartItem) : ℚ :=
  cart.foldl (fun total item => total + item.price * item.quantity) 0

/-- The quantity the cart holds for a given product id (0 when no line exists). -/
def qtyOf (productId : String) (cart : List CartItem) : Nat :=
  ((cart.find? (fun item => item.id == productId)).map (fun item => item.quantity)).getD 0

/-- Well-formedness of a simulator cart: line ids are pairwise distinct and every
line carries at least one unit.  This is the invariant of all reachable simulator
cart states (see `cartWF_nil`, `cartWF_add`, `cartWF_remove`). -/
def cartWF (cart : List CartItem) : Prop :=
  (cart.map (fun item => item.id)).Nodup ∧ ∀ item ∈ cart, 1 ≤ item.quantity

instance (cart : List CartItem) : Decidable (cartWF cart) := by
  unfold cartWF; infer_instance

/-! ## Firmware scan cooldown (both `.ino` files, `loop`) -/

/-- `rfidCooldown` (both firmware files): 2 seconds between admitted reads. -/
def rfidCooldown : Nat := 2000

/-- `deviceId` constant burnt into the firmware. -/
def deviceId : String := "cart_001"

/-- A scan request as serialized by `sendRFIDData`: `{rfidTag, action, deviceId}`. -/
structure ScanMsg where
  rfidTag : String
  action : String
  deviceId : String
deriving DecidableEq

/-- The deduplication state the firmware keeps: `lastReadRFID` and
`lastRFIDReadTime` (milliseconds). -/
structure DedupState where
  lastReadRFID : String
  lastRFIDReadTime : Nat
deriving DecidableEq

/-- One card-present iteration of `loop` in `NodeMCU_RFID_HTTP.ino` (lines 82–105):
if `millis() - lastRFIDReadTime > rfidCooldown` the scan is transmitted (action is
always `"add"` on this firmware) and both `lastRFIDReadTime` and `lastReadRFID`
are updated; otherwise nothing is sent and the state is untouched.  Returns the
transmitted message (if any) and the next state. -/
def loopScanStepHTTP (st : DedupState) (tag : String) (now : Nat) :
    Option ScanMsg × DedupState :=
  if rfidCooldown < now - st.lastRFIDReadTime then
    (some ⟨tag, "add", deviceId⟩, ⟨tag, now⟩)
  else (none, st)

/-- One card-present iteration of `loop` in `NodeMCU_RFID_WebSocket.ino`
(lines 184–216): the card is only consulted while `cartConnected`; the same
cooldown test gates transmission; the action is `"remove"` when the remove button
is held low and `"add"` otherwise. -/
def loopScanStepWS (st : DedupState) (cartConnected removeButtonLow : Bool)
    (tag : String) (now : Nat) : Option ScanMsg × DedupState :=
  if cartConnected then
    if rfidCooldown < now - st.lastRFIDReadTime then
      (some ⟨tag, if removeButtonLow then "remove" else "add", deviceId⟩, ⟨tag, now⟩)
    else (none, st)
  else (none, st)

/-- Folds `loopScanStepHTTP` over a list of `(tag, millis)` scan events, counting
how many of them are transmitted to the server. -/
def runScansHTTP : DedupState → List (String × Nat) → Nat × DedupState
  | st, [] => (0, st)
  | st, (tag, now) :: rest =>
      let r := loopScanStepHTTP st tag now
      let rr := runScansHTTP r.2 rest
      ((if r.1.isSome then 1 else 0) + rr.1, rr.2)

/-- The number of caller-visible acknowledgments a single scan produces on the
HTTP firmware: each transmitted request is answered and acknowledged (LED feedback
in `sendRFIDData`); a suppressed scan never reaches `sendRFIDData`, so it produces
none. -/
def scanAckCountHTTP (st : DedupState) (tag : String) (now : Nat) : Nat :=
  ((loopScanStepHTTP st tag now).1).toList.length

/-! ## Firmware LCD cart display (`NodeMCU_RFID_WebSocket.ino`) -/

/-- The cart-related state of the WebSocket firmware: `cartConnected`,
`connectedUserId`, `itemCount`, `cartTotal` (a running float, modelled as `ℚ`). -/
structure FwState where
  cartConnected : Bool
  connectedUserId : String
  itemCount : Nat
  cartTotal : ℚ
deriving DecidableEq

/-- The firmware's boot state: disconnected, zero items, zero total. -/
def fwInitial : FwState := ⟨false, "", 0, 0⟩

/-- `handleCartConnected` (lines 351–373): on success marks the cart connected and
records the user id.  Note it does not load the user's existing cart: `itemCount`
and `cartTotal` keep whatever values they had. -/
def handleCartConnected (st : FwState) (success : Bool) (userId : String) : FwState :=
  if success then { st with cartConnected := true, connectedUserId := userId } else st

/-- `handleProductScanned` (lines 375–421): on `"add"` increments the item count
and adds the product price to the running total; on `"remove"` decrements the
count clamped at zero (`max(0, itemCount - 1)`, which is `Nat` subtraction) and
subtracts the price clamped at zero (`max(0.0f, cartTotal - productPrice)`). -/
def handleProductScanned (st : FwState) (productPrice : ℚ) (action : String) : FwState :=
  if action == "add" then
    { st with itemCount := st.itemCount + 1, cartTotal := st.cartTotal + productPrice }
  else if action == "remove" then
    { st with itemCount := st.itemCount - 1, cartTotal := max 0 (st.cartTotal - productPrice) }
  else st

/-- `handleCheckoutComplete` (lines 423–444): the source compares the event's
device id against itself (`strcmp(deviceId, deviceId)`, the parameter shadowing
the global), so the guard is always true and the state is always reset. -/
def handleCheckoutComplete (st : FwState) (evDeviceId : String) : FwState :=
  if evDeviceId == evDeviceId then
    { st with cartConnected := false, itemCount := 0, cartTotal := 0 }
  else st

/-! ## Client cart context (`CartContext.tsx`) -/

/-- A server cart as the client sees it. -/
structure ClientCart where
  userId : String
  items : List CartItem
  total : ℚ
deriving DecidableEq

/-- The `CartContext` reducer state: `{ cart, loading, error }`. -/
structure ClientCartState where
  cart : Option ClientCart
  loading : Bool
  error : Option String
deriving DecidableEq

/-- The action type of `cartReducer`. -/
inductive CartAction where
  | fetchCartRequest
  | fetchCartSuccess (c : ClientCart)
  | fetchCartFailure (msg : String)
  | updateCart (c : ClientCart)
  | clearCartSuccess
  | clearError
deriving DecidableEq

/-- `cartReducer` (CartContext.tsx lines 33–70), case by case. -/
def cartReducer (st : ClientCartState) : CartAction → ClientCartState
  | .fetchCartRequest => { st with loading := true, error := none }
  | .fetchCartSuccess c => { st with cart := some c, loading := false, error := none }
  | .fetchCartFailure msg => { st with loading := false, error := some msg }
  | .updateCart c => { st with cart := some c, loading := false, error := none }
  | .clearCartSuccess => { cart := none, loading := false, error := none }
  | .clearError => { st with error := none }

/-- The state updates `rfidScan` performs when the server rejects the scan
(CartContext.tsx lines 185–225): it dispatches `FETCH_CART_REQUEST` and then, in
the catch branch, `FETCH_CART_FAILURE` with the error message; no cart update is
dispatched. -/
def rfidScanFailurePath (st : ClientCartState) (msg : String) : ClientCartState :=
  cartReducer (cartReducer st .fetchCartRequest) (.fetchCartFailure msg)

/-- The authenticated user as `handleCartUpdate` sees it. -/
structure AuthUser where
  id : String
  username : String
deriving DecidableEq

/-- `handleCartUpdate` (CartContext.tsx lines 88–97): a `cart_updated` event is
applied only when an authenticated user exists and the event's `userId` equals
that user's id; the user's cart is looked up in the payload's `carts`, defaulting
to the empty cart `{userId, items: [], total: 0}`. -/
def handleCartUpdate (user : Option AuthUser) (st : ClientCartState)
    (evUserId : String) (evCarts : List ClientCart) : ClientCartState :=
  match user with
  | some u =>
      if evUserId == u.id then
        cartReducer st
          (.updateCart ((evCarts.find? (fun c => c.userId == u.id)).getD ⟨u.id, [], 0⟩))
      else st
  | none => st

/-! ## Retry loops (client `handleDeviceRequest` and firmware `sendRFIDData`) -/

/-- `maxRetries`: 3 in both the client and the firmware. -/
def maxRetries : Nat := 3

/-- The outcome of one `cartAPI.handleDeviceRequest` call as the client's catch
branch distinguishes it: success, or an HTTP failure with a status code. -/
inductive DeviceReqResult where
  | ok
  | httpErr (status : Nat)
deriving DecidableEq

/-- The retry loop of `handleDeviceRequest` (CartContext.tsx lines 234–255):
`remaining` is `maxRetries - 1 - retries`, the number of retries still allowed.
A 502 with retries left waits 2 s (fixed, not exponential) and tries again; any
other failure is rethrown at once; at most 3 calls happen in total.  `res k` is
the outcome of the k-th call; the result pairs the surfaced outcome with the
number of calls made. -/
def handleDeviceRequestAux (res : Nat → DeviceReqResult) :
    Nat → Nat → Except Nat Unit × Nat
  | retries, remaining =>
      match res retries with
      | .ok => (.ok (), retries + 1)
      | .httpErr s =>
          match remaining with
          | 0 => (.error s, retries + 1)
          | r + 1 =>
              if s = 502 then handleDeviceRequestAux res (retries + 1) r
              else (.error s, retries + 1)

/-- `handleDeviceRequest`'s whole retry loop, started at zero retries. -/
def handleDeviceRequestRun (res : Nat → DeviceReqResult) : Except Nat Unit × Nat :=
  handleDeviceRequestAux res 0 (maxRetries - 1)

/-- The distinguishable outcomes of one `attemptSendRFIDData` call
(NodeMCU_RFID_HTTP.ino lines 295–396). -/
inductive FwAttempt where
  | badGateway
  | transportError
  | parseError
  | serverReject
  | serverOk
deriving DecidableEq

/-- `attemptSendRFIDData` returns `true` only when the server answered with a
parseable body whose `success` flag is true; a 502, a transport error, a parse
error and a server rejection all return `false` alike. -/
def attemptSendRFIDData : FwAttempt → Bool
  | .serverOk => true
  | _ => false

/-- The `while (!success && retryCount < maxRetries)` loop of `sendRFIDData`
(lines 258–293): `remaining = maxRetries - retryCount`.  Every failed attempt —
502 or not — is retried after a fixed 2 s delay until `maxRetries` attempts have
been made.  Returns the final success flag and the number of attempts. -/
def sendRFIDDataAux (out : Nat → FwAttempt) : Nat → Nat → Bool × Nat
  | retryCount, 0 => (false, retryCount)
  | retryCount, r + 1 =>
      if attemptSendRFIDData (out retryCount) then (true, retryCount + 1)
      else sendRFIDDataAux out (retryCount + 1) r

/-- `sendRFIDData`'s whole retry loop, started at zero attempts. -/
def sendRFIDDataRun (out : Nat → FwAttempt) : Bool × Nat :=
  sendRFIDDataAux out 0 maxRetries

/-! ## Server-side checkout (modelled from the spec) -/

/-- The reconciliation-engine state at the checkout boundary: per-user carts,
device bindings, per-product inventory. -/
structure EngineState where
  carts : String → List CartItem
  bindings : String → Option String
  inventory : String → Nat

/-- Modelled from the spec: the server-side `completeCheckout(userId)` handler is
not among the sources under `src/` (only its clients are: the browser calls
`cartAPI.checkout()` and the firmware reacts to the `checkout_complete` event).
Per spec §4.7 it clears the user's cart, unbinds any device bound to that user and
leaves the inventory untouched (stock was already decremented at scan time). -/
def completeCheckout (st : EngineState) (u : String) : EngineState :=
  { carts := fun v => if v = u then [] else st.carts v
    bindings := fun d => if st.bindings d = some u then none else st.bindings d
    inventory := st.inventory }

/-! ## Socket listener registry (`ProductContext.tsx`, `SocketService`) -/

/-- `SocketService.on` (lines 466–471): appends the callback to the event's
listener list (`this.listeners[event].push(callback)`, the list created on first
use — the registry is modelled as a total map defaulting to `[]`). -/
def socketOn {C : Type} (L : String → List C) (event : String) (callback : C) :
    String → List C :=
  fun e => if e = event then L e ++ [callback] else L e

/-- `SocketService.off` (lines 473–476): keeps the callbacks that are not
(reference-)equal to the argument (`filter(cb => cb !== callback)`). -/
def socketOff {C : Type} [DecidableEq C] (L : String → List C) (event : String)
    (callback : C) : String → List C :=
  fun e => if e = event then (L e).filter (fun cb => decide (cb ≠ callback)) else L e

/-- `SocketService.triggerListeners` (lines 478–481): invokes each registered
callback for the event once, in registration order; the returned list is the
invocation sequence. -/
def triggerListeners {C : Type} (L : String → List C) (event : String) : List C :=
  L event

/-! ## General list lemmas used by the cart proofs -/

theorem find?_append_of_none {α : Type} (l₁ l₂ : List α) (p : α → Bool)
    (h : l₁.find? p = none) : (l₁ ++ l₂).find? p = l₂.find? p := by
  induction l₁ with
  | nil => simp
  | cons a l ih =>
      rw [List.find?_cons] at h
      cases hpa : p a with
      | true => rw [hpa] at h; exact absurd h (by simp)
      | false =>
          rw [hpa] at h
          simpa [List.find?_cons, hpa] using ih h

theorem find?_map_id_pred {α : Type} (f : α → α) (p : α → Bool)
    (hp : ∀ a, p (f a) = p a) (l : List α) :
    (l.map f).find? p = (l.find? p).map f := by
  induction l with
  | nil => simp
  | cons a l ih =>
      cases hpa : p a with
      | true => simp [List.find?_cons, hp a, hpa]
      | false => simp [List.find?_cons, hp a, hpa, ih]

theorem map_id_of_mem {α : Type} (l : List α) (f : α → α)
    (h : ∀ a ∈ l, f a = a) : l.map f = l := by
  induction l with
  | nil => simp
  | cons a l ih =>
      simp only [List.map_cons]
      rw [h a (by simp), ih fun b hb => h b (by simp [hb])]

theorem filter_eq_self_of_mem {α : Type} (l : List α) (p : α → Bool)
    (h : ∀ a ∈ l, p a = true) : l.filter p = l := by
  induction l with
  | nil => simp
  | cons a l ih =>
      simp [List.filter_cons, h a (by simp), ih fun b hb => h b (by simp [hb])]

theorem filter_filter_of_imp {α : Type} (l : List α) (p r : α → Bool)
    (h : ∀ a ∈ l, r a = true → p a = true) : (l.filter p).filter r = l.filter r := by
  induction l with
  | nil => simp
  | cons a l ih =>
      have ih' := ih fun b hb => h b (by simp [hb])
      cases hra : r a with
      | true => simp [List.filter_cons, h a (by simp) hra, hra, ih']
      | false =>
          cases hpa : p a with
          | true => simp [List.filter_cons, hpa, hra, ih']
          | false => simp [List.filter_cons, hpa, hra, ih']

theorem filter_map_invariant {α : Type} (f : α → α) (r : α → Bool)
    (hr : ∀ a, r (f a) = r a) (l : List α)
    (hf : ∀ a ∈ l, r a = true → f a = a) :
    (l.map f).filter r = l.filter r := by
  induction l with
  | nil => simp
  | cons a l ih =>
      have ih' := ih fun b hb => hf b (by simp [hb])
      cases hra : r a with
      | true => simp [List.filter_cons, hr a, hra, hf a (by simp) hra, ih']
      | false => simp [List.filter_cons, hr a, hra, ih']

theorem map_congr_mem {α β : Type} (l : List α) (g g' : α → β)
    (h : ∀ a ∈ l, g a = g' a) : l.map g = l.map g' := by
  induction l with
  | nil => simp
  | cons a l ih =>
      simp only [List.map_cons]
      rw [h a (by simp), ih fun b hb => h b (by simp [hb])]

/-! ## The simulator-cart invariant is established and preserved -/

theorem find?_filter_ne_none (pid : String) (cart : List CartItem) :
    (cart.filter (fun item => item.id != pid)).find? (fun item => item.id == pid) = none := by
  rw [List.find?_eq_none]
  intro x hx
  rw [List.mem_filter] at hx
  simpa using hx.2

theorem cartWF_filter_ne (pid : String) (cart : List CartItem) (h : cartWF cart) :
    cartWF (cart.filter (fun item => item.id != pid)) := by
  obtain ⟨hnd, hq⟩ := h
  constructor
  · exact hnd.sublist ((cart.filter_sublist).map (fun item => item.id))
  · intro item hitem
    rw [List.mem_filter] at hitem
    exact hq item hitem.1

theorem cartWF_nil : cartWF [] := by constructor <;> simp

theorem cartWF_add (p : Product) (cart : List CartItem) (h : cartWF cart) :
    cartWF (addToSimulatedCart p cart) := by
  obtain ⟨hnd, hq⟩ := h
  cases hfind : cart.find? (fun item => item.id == p.id) with
  | some it0 =>
      simp only [addToSimulatedCart, hfind]
      constructor
      · rw [List.map_map]
        have : cart.map ((fun item => item.id) ∘ fun item =>
            if item.id == p.id then { item with quantity := item.quantity + 1 } else item) =
            cart.map (fun item => item.id) :=
          map_congr_mem _ _ _ (fun a _ => by
            cases hc : (a.id == p.id) <;> simp [Function.comp, hc])
        rw [this]; exact hnd
      · intro item hitem
        rw [List.mem_map] at hitem
        obtain ⟨a, ha, rfl⟩ := hitem
        cases hc : (a.id == p.id) with
        | true => simp [hc]
        | false => simpa [hc] using hq a ha
  | none =>
      simp only [addToSimulatedCart, hfind]
      have hnotin := List.find?_eq_none.mp hfind
      constructor
      · rw [List.map_append, List.nodup_append]
        refine ⟨hnd, by simp, ?_⟩
        intro x hx
        rw [List.mem_map] at hx
        obtain ⟨a, ha, rfl⟩ := hx
        have := hnotin a ha
        simp only [List.map_cons, List.map_nil, List.mem_singleton]
        intro hcontra
        exact this (by simp [hcontra])
      · intro item hitem
        rw [List.mem_append] at hitem
        cases hitem with
        | inl hmem => exact hq item hmem
        | inr hmem => rw [List.mem_singleton] at hmem; subst hmem; exact le_refl 1

theorem cartWF_remove (pid : String) (cart : List CartItem) (h : cartWF cart) :
    cartWF (removeFromSimulatedCart pid cart) := by
  obtain ⟨hnd, hq⟩ := h
  cases hfind : cart.find? (fun item => item.id == pid) with
  | none =>
      simp only [removeFromSimulatedCart, hfind]
      exact cartWF_filter_ne pid cart ⟨hnd, hq⟩
  | some it0 =>
      by_cases hgt : 1 < it0.quantity
      · simp only [removeFromSimulatedCart, hfind, if_pos hgt]
        have hmem0 := List.mem_of_find?_eq_some hfind
        have hpred0 : (it0.id == pid) = true := by simpa using List.find?_some hfind
        constructor
        · rw [List.map_map]
          have : cart.map ((fun item => item.id) ∘ fun item =>
              if item.id == pid then { item with quantity := item.quantity - 1 } else item) =
              cart.map (fun item => item.id) :=
            map_congr_mem _ _ _ (fun a _ => by
              cases hc : (a.id == pid) <;> simp [Function.comp, hc])
          rw [this]; exact hnd
        · intro item hitem
          rw [List.mem_map] at hitem
          obtain ⟨a, ha, rfl⟩ := hitem
          cases hc : (a.id == pid) with
          | true =>
              have hae : a = it0 := by
                apply List.inj_on_of_nodup_map hnd ha hmem0
                rw [beq_iff_eq] at hc hpred0
                rw [hc, hpred0]
              subst hae
              simp only [hc, if_true]
              omega
          | false => simpa [hc] using hq a ha
      · simp only [removeFromSimulatedCart, hfind, if_neg hgt]
        exact cartWF_filter_ne pid cart ⟨hnd, hq⟩

/-! ## Add/remove round trip -/

theorem addRemove_eq_of_none (p : Product) (cart : List CartItem)
    (hfind : cart.find? (fun item => item.id == p.id) = none) :
    removeFromSimulatedCart p.id (addToSimulatedCart p cart) = cart := by
  have hnotin := List.find?_eq_none.mp hfind
  simp only [addToSimulatedCart, hfind]
  have h1 : (cart ++ [(⟨p.id, p.name, p.price, p.rfidTag, 1⟩ : CartItem)]).find?
      (fun item => item.id == p.id) = some ⟨p.id, p.name, p.price, p.rfidTag, 1⟩ := by
    rw [find?_append_of_none _ _ _ hfind]
    simp [List.find?]
  simp only [removeFromSimulatedCart, h1]
  rw [if_neg (by simp)]
  rw [List.filter_append]
  have h2 : cart.filter (fun item => item.id != p.id) = cart :=
    filter_eq_self_of_mem _ _ (fun a ha => by simpa using hnotin a ha)
  rw [h2]
  simp

theorem addRemove_eq_of_some (p : Product) (cart : List CartItem) (it0 : CartItem)
    (hfind : cart.find? (fun item => item.id == p.id) = some it0)
    (hq : 1 ≤ it0.quantity) :
    removeFromSimulatedCart p.id (addToSimulatedCart p cart) = cart := by
  have hpred0 : (it0.id == p.id) = true := by simpa using List.find?_some hfind
  simp only [addToSimulatedCart, hfind]
  have hidpres : ∀ a : CartItem,
      (((fun item => if item.id == p.id then
          { item with quantity := item.quantity + 1 } else item) a).id == p.id) =
        (a.id == p.id) := by
    intro a
    cases hc : (a.id == p.id) <;> simp [hc]
  have h1 : (cart.map (fun item => if item.id == p.id then
      { item with quantity := item.quantity + 1 } else item)).find?
        (fun item => item.id == p.id) =
      some { it0 with quantity := it0.quantity + 1 } := by
    rw [find?_map_id_pred _ _ hidpres, hfind, Option.map_some']
    rw [if_pos hpred0]
  simp only [removeFromSimulatedCart, h1]
  rw [if_pos (by simp; omega)]
  rw [List.map_map]
  apply map_id_of_mem
  intro a _
  cases hc : (a.id == p.id) <;> simp [Function.comp, hc]

/-- Claim C4: for every well-formed cart state (the invariant of all reachable
simulator carts: distinct line ids, every line quantity at least 1), adding one
unit of a product and then removing one unit of the same product restores the
cart exactly — in particular the cart total is restored exactly, not merely
approximately. -/
theorem addRemoveRoundTrip (p : Product) (cart : List CartItem) (h : cartWF cart) :
    removeFromSimulatedCart p.id (addToSimulatedCart p cart) = cart ∧
    calculateTotal (removeFromSimulatedCart p.id (addToSimulatedCart p cart)) =
      calculateTotal cart := by
  have heq : removeFromSimulatedCart p.id (addToSimulatedCart p cart) = cart := by
    cases hfind : cart.find? (fun item => item.id == p.id) with
    | none => exact addRemove_eq_of_none p cart hfind
    | some it0 =>
        exact addRemove_eq_of_some p cart it0 hfind
          (h.2 it0 (List.mem_of_find?_eq_some hfind))
  exact ⟨heq, by rw [heq]⟩

/-- Witness for claim C4 at a concrete cart and product. -/
theorem addRemoveRoundTrip_witness :
    cartWF [⟨"a", "Milk", 3, "T1", 2⟩] ∧
    (removeFromSimulatedCart "b" (addToSimulatedCart ⟨"b", "Bread", 5, "T2", 10⟩
        [⟨"a", "Milk", 3, "T1", 2⟩]) = [⟨"a", "Milk", 3, "T1", 2⟩] ∧
      calculateTotal (removeFromSimulatedCart "b" (addToSimulatedCart
          ⟨"b", "Bread", 5, "T2", 10⟩ [⟨"a", "Milk", 3, "T1", 2⟩])) =
        calculateTotal [⟨"a", "Milk", 3, "T1", 2⟩]) :=
  ⟨by constructor <;> simp [cartWF],
    addRemoveRoundTrip ⟨"b", "Bread", 5, "T2", 10⟩ [⟨"a", "Milk", 3, "T1", 2⟩]
      (by constructor <;> simp [cartWF])⟩

theorem find?_remove_dec (pid : String) (cart : List CartItem) (it0 : CartItem)
    (hfind : cart.find? (fun item => item.id == pid) = some it0) :
    (cart.map (fun item => if item.id == pid then
        { item with quantity := item.quantity - 1 } else item)).find?
      (fun item => item.id == pid) = some { it0 with quantity := it0.quantity - 1 } := by
  have hpred0 : (it0.id == pid) = true := by simpa using List.find?_some hfind
  have hidpres : ∀ a : CartItem,
      (((fun item => if item.id == pid then
          { item with quantity := item.quantity - 1 } else item) a).id == pid) =
        (a.id == pid) := by
    intro a
    cases hc : (a.id == pid) <;> simp [hc]
  rw [find?_map_id_pred _ _ hidpres, hfind, Option.map_some']
  rw [if_pos hpred0]

/-- Claim C5: a remove never fails.  On a well-formed cart: the stored quantity of
the removed product drops by exactly one, clamped at zero (`Nat` subtraction); when
no line for the product exists the cart is returned unchanged (a no-op); when the
line holds a single unit the line itself is removed; and lines of every other
product id are untouched. -/
theorem removeNeverFails (pid : String) (cart : List CartItem) (h : cartWF cart) :
    qtyOf pid (removeFromSimulatedCart pid cart) = qtyOf pid cart - 1 ∧
    (cart.find? (fun item => item.id == pid) = none →
      removeFromSimulatedCart pid cart = cart) ∧
    (∀ it, cart.find? (fun item => item.id == pid) = some it → it.quantity = 1 →
      (removeFromSimulatedCart pid cart).find? (fun item => item.id == pid) = none) ∧
    (∀ q, q ≠ pid →
      (removeFromSimulatedCart pid cart).filter (fun item => item.id == q) =
        cart.filter (fun item => item.id == q)) := by
  refine ⟨?_, ?_, ?_, ?_⟩
  · cases hfind : cart.find? (fun item => item.id == pid) with
    | none =>
        simp only [removeFromSimulatedCart, hfind]
        rw [qtyOf, find?_filter_ne_none, qtyOf, hfind]
        rfl
    | some it0 =>
        by_cases hgt : 1 < it0.quantity
        · simp only [removeFromSimulatedCart, hfind, if_pos hgt]
          rw [qtyOf, find?_remove_dec pid cart it0 hfind, qtyOf, hfind]
          rfl
        · simp only [removeFromSimulatedCart, hfind, if_neg hgt]
          rw [qtyOf, find?_filter_ne_none, qtyOf, hfind]
          have h1 : 1 ≤ it0.quantity := h.2 it0 (List.mem_of_find?_eq_some hfind)
          have : it0.quantity = 1 := by omega
          simp [this]
  · intro hfind
    simp only [removeFromSimulatedCart, hfind]
    exact filter_eq_self_of_mem _ _
      (fun a ha => by simpa using List.find?_eq_none.mp hfind a ha)
  · intro it hfind hone
    have : ¬ 1 < it.quantity := by omega
    simp only [removeFromSimulatedCart, hfind, if_neg this]
    exact find?_filter_ne_none pid cart
  · intro q hq
    cases hfind : cart.find? (fun item => item.id == pid) with
    | none =>
        simp only [removeFromSimulatedCart, hfind]
        apply filter_filter_of_imp
        intro a _ hra
        rw [beq_iff_eq] at hra
        simp [hra, hq]
    | some it0 =>
        by_cases hgt : 1 < it0.quantity
        · simp only [removeFromSimulatedCart, hfind, if_pos hgt]
          apply filter_map_invariant
          · intro a
            cases hc : (a.id == pid) <;> simp [hc]
          · intro a _ hra
            rw [beq_iff_eq] at hra
            have : ¬ ((a.id == pid) = true) := by simp [hra, hq]
            rw [if_neg this]
        · simp only [removeFromSimulatedCart, hfind, if_neg hgt]
          apply filter_filter_of_imp
          intro a _ hra
          rw [beq_iff_eq] at hra
          simp [hra, hq]

/-- Witness for claim C5 at a concrete cart holding a single unit. -/
theorem removeNeverFails_witness :
    cartWF [⟨"a", "Milk", 3, "T1", 1⟩] ∧
    (qtyOf "a" (removeFromSimulatedCart "a" [⟨"a", "Milk", 3, "T1", 1⟩]) =
        qtyOf "a" [⟨"a", "Milk", 3, "T1", 1⟩] - 1 ∧
      ([(⟨"a", "Milk", 3, "T1", 1⟩ : CartItem)].find? (fun item => item.id == "a") = none →
        removeFromSimulatedCart "a" [⟨"a", "Milk", 3, "T1", 1⟩] = [⟨"a", "Milk", 3, "T1", 1⟩]) ∧
      (∀ it, [(⟨"a", "Milk", 3, "T1", 1⟩ : CartItem)].find? (fun item => item.id == "a") =
          some it → it.quantity = 1 →
        (removeFromSimulatedCart "a" [⟨"a", "Milk", 3, "T1", 1⟩]).find?
          (fun item => item.id == "a") = none) ∧
      (∀ q, q ≠ "a" →
        (removeFromSimulatedCart "a" [⟨"a", "Milk", 3, "T1", 1⟩]).filter
            (fun item => item.id == q) =
          [(⟨"a", "Milk", 3, "T1", 1⟩ : CartItem)].filter (fun item => item.id == q))) :=
  ⟨by constructor <;> simp [cartWF],
    removeNeverFails "a" [⟨"a", "Milk", 3, "T1", 1⟩] (by constructor <;> simp [cartWF])⟩

/-! ## Claim C3: displayed totals -/

theorem foldl_total_eq (cart : List CartItem) (init : ℚ) :
    cart.foldl (fun total item => total + item.price * (item.quantity : ℚ)) init =
      init + (cart.map (fun item => item.price * (item.quantity : ℚ))).sum := by
  induction cart generalizing init with
  | nil => simp
  | cons a l ih => simp [List.foldl_cons, ih, add_assoc]

/-- Claim C3 (amended): the browser client's displayed cart total is recomputed
from the cart lines on every mutation — `calculateTotal` equals
Σ (price × quantity) over the lines, so the client total cannot drift from its
items.  (The firmware LCD total, by contrast, is an independently stored running
value; see the counterexample.) -/
theorem calculateTotal_eq_sum (cart : List CartItem) :
    calculateTotal cart = (cart.map (fun item => item.price * (item.quantity : ℚ))).sum := by
  rw [calculateTotal, foldl_total_eq, zero_add]

/-- Claim C3 counterexample: the WebSocket firmware stores `cartTotal` as a
running value.  When the device connects to a user whose cart already holds one
line of price 3 (a reachable state: the user added the item from the browser
before connecting the cart), the LCD state shows total 0 while the cart's
Σ (price × quantity) is 3; and the remove handler clamps the running value at 0
(`max(0.0f, cartTotal - price)`), here 2 − 5 ↦ 0. -/
theorem storedFwTotalDrifts :
    (handleCartConnected fwInitial true "u1").cartConnected = true ∧
    (handleCartConnected fwInitial true "u1").cartTotal = 0 ∧
    calculateTotal (addToSimulatedCart ⟨"a", "Milk", 3, "T1", 10⟩ []) = 3 ∧
    (handleCartConnected fwInitial true "u1").cartTotal ≠
      calculateTotal (addToSimulatedCart ⟨"a", "Milk", 3, "T1", 10⟩ []) ∧
    (handleProductScanned ⟨true, "u1", 1, 2⟩ 5 "remove").cartTotal = 0 := by
  have hct : calculateTotal (addToSimulatedCart ⟨"a", "Milk", 3, "T1", 10⟩ []) = 3 := by
    simp [calculateTotal, addToSimulatedCart]
  refine ⟨rfl, rfl, hct, ?_, ?_⟩
  · rw [hct]
    have : (handleCartConnected fwInitial true "u1").cartTotal = 0 := rfl
    rw [this]
    norm_num
  · simp [handleProductScanned, handleCartConnected, fwInitial]
    norm_num

/-! ## Claim C1: scan cooldown -/

/-- Claim C1 counterexample: the firmware cooldown ignores the tag.  With the
last admitted scan of tag `"A"` at 1000 ms, a scan of the different tag `"B"` at
2000 ms falls inside the 2 s window and is suppressed (nothing transmitted, state
unchanged) on both firmware variants — the claim's "suppression applies exactly
when the new event has the same tag" would require this scan to be admitted. -/
theorem cooldownIgnoresTag :
    (loopScanStepHTTP ⟨"A", 1000⟩ "B" 2000).1 = none ∧
    (loopScanStepHTTP ⟨"A", 1000⟩ "B" 2000).2 = ⟨"A", 1000⟩ ∧
    ("B" : String) ≠ "A" ∧ 2000 - 1000 ≤ rfidCooldown ∧
    (loopScanStepWS ⟨"A", 1000⟩ true false "B" 2000).1 = none := by
  refine ⟨?_, ?_, by decide, by decide, ?_⟩ <;>
    simp [loopScanStepHTTP, loopScanStepWS, rfidCooldown]

/-- Claim C1 (amended): within the 2-second cooldown window of the last admitted
event the firmware suppresses every scan — same tag or not, whatever the action:
nothing is transmitted and the dedup state is unchanged, so no cart mutation can
result from it.  Two scans of which the second falls within the window of the
first admitted one (in particular two identical scans) produce exactly one
transmission, hence at most one cart mutation. -/
theorem scanCooldownSuppression (st : DedupState) (tag tag2 : String) (t1 t2 : Nat)
    (h1 : rfidCooldown < t1 - st.lastRFIDReadTime) (h2 : t2 - t1 ≤ rfidCooldown) :
    (∀ tg now, now - st.lastRFIDReadTime ≤ rfidCooldown →
      loopScanStepHTTP st tg now = (none, st)) ∧
    (runScansHTTP st [(tag, t1), (tag2, t2)]).1 = 1 ∧
    (∀ cc rb tg now, now - st.lastRFIDReadTime ≤ rfidCooldown →
      loopScanStepWS st cc rb tg now = (none, st)) := by
  refine ⟨?_, ?_, ?_⟩
  · intro tg now hn
    rw [loopScanStepHTTP, if_neg (Nat.not_lt.mpr hn)]
  · have hstep1 : loopScanStepHTTP st tag t1 = (some ⟨tag, "add", deviceId⟩, ⟨tag, t1⟩) := by
      rw [loopScanStepHTTP, if_pos h1]
    have hstep2 : loopScanStepHTTP ⟨tag, t1⟩ tag2 t2 = (none, ⟨tag, t1⟩) := by
      rw [loopScanStepHTTP, if_neg (Nat.not_lt.mpr h2)]
    simp [runScansHTTP, hstep1, hstep2]
  · intro cc rb tg now hn
    cases cc with
    | false => rfl
    | true =>
        rw [loopScanStepWS, if_pos rfl, if_neg (Nat.not_lt.mpr hn)]

/-- Witness for claim C1: a scan admitted at 5000 ms followed by an identical
scan at 6000 ms. -/
theorem scanCooldownSuppression_witness :
    (rfidCooldown < 5000 - (⟨"", 0⟩ : DedupState).lastRFIDReadTime ∧
      6000 - 5000 ≤ rfidCooldown) ∧
    ((∀ tg now, now - (⟨"", 0⟩ : DedupState).lastRFIDReadTime ≤ rfidCooldown →
        loopScanStepHTTP ⟨"", 0⟩ tg now = (none, ⟨"", 0⟩)) ∧
      (runScansHTTP ⟨"", 0⟩ [("T1", 5000), ("T1", 6000)]).1 = 1 ∧
      (∀ cc rb tg now, now - (⟨"", 0⟩ : DedupState).lastRFIDReadTime ≤ rfidCooldown →
        loopScanStepWS ⟨"", 0⟩ cc rb tg now = (none, ⟨"", 0⟩))) :=
  ⟨⟨by decide, by decide⟩,
    scanCooldownSuppression ⟨"", 0⟩ "T1" "T1" 5000 6000 (by decide) (by decide)⟩

/-! ## Claim C7: acknowledgments -/

/-- Claim C7 counterexample: a suppressed duplicate is silently dropped.  The
same tag `"A"` re-scanned 1000 ms after the last admitted read is inside the
cooldown window; the HTTP firmware transmits nothing and produces zero
caller-visible acknowledgments, not the one acknowledgment (marked "duplicate")
the claim requires. -/
theorem suppressedScanNoAck :
    scanAckCountHTTP ⟨"A", 1000⟩ "A" 2000 = 0 ∧
    (loopScanStepHTTP ⟨"A", 1000⟩ "A" 2000).1 = none ∧
    2000 - 1000 ≤ rfidCooldown ∧ (0 : Nat) ≠ 1 := by
  refine ⟨?_, ?_, by decide, by decide⟩ <;> simp [scanAckCountHTTP, loopScanStepHTTP, rfidCooldown]

/-- Claim C7 (amended): an admitted scan produces exactly one transmission and
with it exactly one acknowledgment (the HTTP response handled in `sendRFIDData`);
a scan inside the cooldown window is dropped silently — zero transmissions, zero
acknowledgments. -/
theorem scanAckDiscipline (st : DedupState) (tag : String) (now : Nat) :
    (now - st.lastRFIDReadTime ≤ rfidCooldown → scanAckCountHTTP st tag now = 0) ∧
    (rfidCooldown < now - st.lastRFIDReadTime → scanAckCountHTTP st tag now = 1) := by
  constructor
  · intro h
    rw [scanAckCountHTTP, loopScanStepHTTP, if_neg (Nat.not_lt.mpr h)]
    rfl
  · intro h
    rw [scanAckCountHTTP, loopScanStepHTTP, if_pos h]
    rfl

/-- Witness for claim C7: both branches at concrete times. -/
theorem scanAckDiscipline_witness :
    (1000 - (⟨"", 0⟩ : DedupState).lastRFIDReadTime ≤ rfidCooldown ∧
      scanAckCountHTTP ⟨"", 0⟩ "T1" 1000 = 0) ∧
    (rfidCooldown < 9000 - (⟨"", 0⟩ : DedupState).lastRFIDReadTime ∧
      scanAckCountHTTP ⟨"", 0⟩ "T1" 9000 = 1) :=
  ⟨⟨by decide, (scanAckDiscipline ⟨"", 0⟩ "T1" 1000).1 (by decide)⟩,
    ⟨by decide, (scanAckDiscipline ⟨"", 0⟩ "T1" 9000).2 (by decide)⟩⟩

/-! ## Claim C6: failed scans leave the cart untouched -/

/-- Claim C6: when an RFID scan fails (ProductNotFound, OutOfStock, or any other
rejection), the client dispatches only `FETCH_CART_REQUEST` then
`FETCH_CART_FAILURE`: the cart field is exactly what it was, the error message is
recorded, and from a settled state (`loading = false`) the error field is the
only field that changes. -/
theorem rfidScanFailureAtomic (st : ClientCartState) (msg : String) :
    (rfidScanFailurePath st msg).cart = st.cart ∧
    (rfidScanFailurePath st msg).error = some msg ∧
    (st.loading = false →
      rfidScanFailurePath st msg =
        { cart := st.cart, loading := st.loading, error := some msg }) := by
  cases st with
  | mk c l e =>
      refine ⟨rfl, rfl, fun h => ?_⟩
      simp only at h
      simp [rfidScanFailurePath, cartReducer, h]

/-- Witness for claim C6 from a settled state. -/
theorem rfidScanFailureAtomic_witness :
    ((⟨none, false, none⟩ : ClientCartState).loading = false) ∧
    rfidScanFailurePath ⟨none, false, none⟩ "Product not found" =
      { cart := none, loading := false, error := some "Product not found" } :=
  ⟨rfl, (rfidScanFailureAtomic ⟨none, false, none⟩ "Product not found").2.2 rfl⟩

/-! ## Claim C9: cart updates are applied only to the owning user -/

/-- Claim C9: `handleCartUpdate` applies a `cart_updated` event only when the
event's `userId` equals the authenticated user's id; events for other users (or
with no authenticated user) leave the whole client state unchanged; an event for
the owning user whose payload contains no cart for that user sets the cart to the
empty default `{userId, items: [], total: 0}`, and one that does contain the
user's cart installs exactly that cart. -/
theorem cartUpdateOwnership (user : Option AuthUser) (st : ClientCartState)
    (evUserId : String) (evCarts : List ClientCart) :
    (∀ u, user = some u → evUserId ≠ u.id →
      handleCartUpdate user st evUserId evCarts = st) ∧
    (user = none → handleCartUpdate user st evUserId evCarts = st) ∧
    (∀ u, user = some u → evUserId = u.id →
      evCarts.find? (fun c => c.userId == u.id) = none →
      (handleCartUpdate user st evUserId evCarts).cart = some ⟨u.id, [], 0⟩) ∧
    (∀ u c, user = some u → evUserId = u.id →
      evCarts.find? (fun c2 => c2.userId == u.id) = some c →
      (handleCartUpdate user st evUserId evCarts).cart = some c) := by
  refine ⟨?_, ?_, ?_, ?_⟩
  · rintro u rfl hne
    simp [handleCartUpdate, hne]
  · rintro rfl
    rfl
  · rintro u rfl rfl hf
    simp [handleCartUpdate, hf, cartReducer]
  · rintro u c rfl rfl hf
    simp [handleCartUpdate, hf, cartReducer]

/-- Witness for claim C9: an event addressed to a different user id is ignored. -/
theorem cartUpdateOwnership_witness :
    (some (⟨"u1", "alice"⟩ : AuthUser) = some ⟨"u1", "alice"⟩ ∧ ("u2" : String) ≠ "u1") ∧
    handleCartUpdate (some ⟨"u1", "alice"⟩) ⟨none, false, none⟩ "u2" [] =
      ⟨none, false, none⟩ :=
  ⟨⟨rfl, by decide⟩,
    (cartUpdateOwnership (some ⟨"u1", "alice"⟩) ⟨none, false, none⟩ "u2" []).1
      ⟨"u1", "alice"⟩ rfl (by decide)⟩

/-! ## Claim C2: checkout clears the cart, unbinds the device, keeps inventory -/

/-- Claim C2: for a user with a bound device and a non-empty cart, completing
checkout clears that user's cart to the empty cart (no lines, total 0), unbinds
the device bound to the user and leaves every inventory quantity unchanged
(spec-modelled server side); on the firmware, `checkout_complete` resets the
device to the disconnected state with item count 0 and total 0; on the browser,
`checkout`'s `CLEAR_CART_SUCCESS` drops the cart. -/
theorem checkoutClears (st : EngineState) (u d : String)
    (hbind : st.bindings d = some u) (_hne : st.carts u ≠ []) :
    (completeCheckout st u).carts u = [] ∧
    calculateTotal ((completeCheckout st u).carts u) = 0 ∧
    (completeCheckout st u).bindings d = none ∧
    (∀ p, (completeCheckout st u).inventory p = st.inventory p) ∧
    (∀ fw ev, (handleCheckoutComplete fw ev).cartConnected = false ∧
      (handleCheckoutComplete fw ev).itemCount = 0 ∧
      (handleCheckoutComplete fw ev).cartTotal = 0) ∧
    (∀ cst, (cartReducer cst .clearCartSuccess).cart = none) := by
  have hcart : (completeCheckout st u).carts u = [] := by
    simp [completeCheckout]
  refine ⟨hcart, ?_, ?_, fun p => rfl, fun fw ev => ?_, fun cst => rfl⟩
  · rw [hcart]
    rfl
  · simp [completeCheckout, hbind]
  · refine ⟨?_, ?_, ?_⟩ <;> simp [handleCheckoutComplete]

/-- Witness for claim C2 at a concrete engine state. -/
theorem checkoutClears_witness :
    ((⟨fun _ => [⟨"a", "Milk", 3, "T1", 1⟩], fun _ => some "u1", fun _ => 5⟩ :
        EngineState).bindings "cart_001" = some "u1" ∧
      (⟨fun _ => [⟨"a", "Milk", 3, "T1", 1⟩], fun _ => some "u1", fun _ => 5⟩ :
        EngineState).carts "u1" ≠ []) ∧
    ((completeCheckout ⟨fun _ => [⟨"a", "Milk", 3, "T1", 1⟩], fun _ => some "u1",
        fun _ => 5⟩ "u1").carts "u1" = [] ∧
      calculateTotal ((completeCheckout ⟨fun _ => [⟨"a", "Milk", 3, "T1", 1⟩],
        fun _ => some "u1", fun _ => 5⟩ "u1").carts "u1") = 0 ∧
      (completeCheckout ⟨fun _ => [⟨"a", "Milk", 3, "T1", 1⟩], fun _ => some "u1",
        fun _ => 5⟩ "u1").bindings "cart_001" = none ∧
      (∀ p, (completeCheckout ⟨fun _ => [⟨"a", "Milk", 3, "T1", 1⟩], fun _ => some "u1",
        fun _ => 5⟩ "u1").inventory p =
        (⟨fun _ => [⟨"a", "Milk", 3, "T1", 1⟩], fun _ => some "u1", fun _ => 5⟩ :
          EngineState).inventory p) ∧
      (∀ fw ev, (handleCheckoutComplete fw ev).cartConnected = false ∧
        (handleCheckoutComplete fw ev).itemCount = 0 ∧
        (handleCheckoutComplete fw ev).cartTotal = 0) ∧
      (∀ cst, (cartReducer cst .clearCartSuccess).cart = none)) :=
  ⟨⟨rfl, by simp⟩,
    checkoutClears ⟨fun _ => [⟨"a", "Milk", 3, "T1", 1⟩], fun _ => some "u1",
      fun _ => 5⟩ "u1" "cart_001" rfl (by simp)⟩

/-! ## Claim C8: retry policies -/

theorem sendRFIDDataAux_le (out : Nat → FwAttempt) :
    ∀ remaining retryCount, (sendRFIDDataAux out retryCount remaining).2 ≤
      retryCount + remaining := by
  intro remaining
  induction remaining with
  | zero => intro rc; simp [sendRFIDDataAux]
  | succ r ih =>
      intro rc
      rw [sendRFIDDataAux]
      cases h : attemptSendRFIDData (out rc) with
      | true =>
          rw [if_pos rfl]
          show rc + 1 ≤ rc + (r + 1)
          omega
      | false =>
          simp only [Bool.false_eq_true, if_false]
          have := ih (rc + 1)
          omega

theorem sendRFIDDataAux_ge (out : Nat → FwAttempt) :
    ∀ remaining retryCount, retryCount ≤ (sendRFIDDataAux out retryCount remaining).2 := by
  intro remaining
  induction remaining with
  | zero => intro rc; simp [sendRFIDDataAux]
  | succ r ih =>
      intro rc
      rw [sendRFIDDataAux]
      cases h : attemptSendRFIDData (out rc) with
      | true => simp
      | false =>
          simp only [Bool.false_eq_true, if_false]
          have := ih (rc + 1)
          omega

/-- Claim C8 counterexample: the HTTP firmware retries non-transient failures.
When every attempt ends in a server rejection (`success: false`, e.g.
"Product not found" — not a 502), `sendRFIDData` still makes all 3 attempts
instead of surfacing the failure after 1. -/
theorem fwRetriesNonTransient :
    sendRFIDDataRun (fun _ => .serverReject) = (false, 3) ∧
    attemptSendRFIDData .serverReject = false ∧
    FwAttempt.serverReject ≠ FwAttempt.badGateway ∧ (3 : Nat) ≠ 1 := by
  refine ⟨?_, rfl, by decide, by decide⟩
  rfl

/-- Claim C8 (amended): both callers cap at 3 total attempts with a fixed (not
exponential) 2-second delay.  The browser client retries only on HTTP 502 and
surfaces any other failure immediately after a single call; the firmware retries
every kind of failed attempt — 502, transport error, parse error or server
rejection alike — until an attempt succeeds or 3 attempts are spent. -/
theorem retryPolicies (res : Nat → DeviceReqResult) (out : Nat → FwAttempt) (s : Nat) :
    (res 0 = .httpErr s → s ≠ 502 → handleDeviceRequestRun res = (.error s, 1)) ∧
    ((∀ k, k < maxRetries → res k = .httpErr 502) →
      handleDeviceRequestRun res = (.error 502, maxRetries)) ∧
    (res 0 = .httpErr 502 → res 1 = .ok → handleDeviceRequestRun res = (.ok (), 2)) ∧
    (sendRFIDDataRun out).2 ≤ maxRetries ∧
    (out 0 ≠ .serverOk → 2 ≤ (sendRFIDDataRun out).2) := by
  refine ⟨?_, ?_, ?_, ?_, ?_⟩
  · intro h0 hs
    rw [handleDeviceRequestRun, maxRetries]
    rw [handleDeviceRequestAux, h0]
    simp [hs]
  · intro hall
    rw [handleDeviceRequestRun, maxRetries]
    rw [handleDeviceRequestAux, hall 0 (by rw [maxRetries]; omega)]
    simp only []
    rw [handleDeviceRequestAux, hall 1 (by rw [maxRetries]; omega)]
    simp only []
    rw [handleDeviceRequestAux, hall 2 (by rw [maxRetries]; omega)]
    simp [maxRetries]
  · intro h0 h1
    rw [handleDeviceRequestRun, maxRetries]
    rw [handleDeviceRequestAux, h0]
    simp only [if_pos rfl]
    rw [handleDeviceRequestAux, h1]
    simp
  · have := sendRFIDDataAux_le out maxRetries 0
    rw [sendRFIDDataRun]
    omega
  · intro h
    have hfail : attemptSendRFIDData (out 0) = false := by
      cases hc : out 0 <;> simp [attemptSendRFIDData] <;> exact absurd hc h
    have hrun : sendRFIDDataRun out = sendRFIDDataAux out 1 2 := by
      rw [sendRFIDDataRun, maxRetries, sendRFIDDataAux, hfail]
      simp
    rw [hrun, sendRFIDDataAux]
    cases hc1 : attemptSendRFIDData (out 1) with
    | true => simp
    | false =>
        simp only [Bool.false_eq_true, if_false]
        have h2 := sendRFIDDataAux_ge out 1 2
        norm_num at h2 ⊢
        exact h2

/-- Witness for claim C8: a 404 on the first client call is surfaced after one
attempt; a firmware run whose first attempt fails makes at least two. -/
theorem retryPolicies_witness :
    ((fun _ : Nat => DeviceReqResult.httpErr 404) 0 = .httpErr 404 ∧ (404 : Nat) ≠ 502 ∧
      (fun _ : Nat => FwAttempt.parseError) 0 ≠ .serverOk) ∧
    handleDeviceRequestRun (fun _ => .httpErr 404) = (.error 404, 1) ∧
    2 ≤ (sendRFIDDataRun (fun _ => .parseError)).2 :=
  ⟨⟨rfl, by decide, by decide⟩,
    (retryPolicies (fun _ => .httpErr 404) (fun _ => .parseError) 404).1 rfl (by decide),
    (retryPolicies (fun _ => .httpErr 404) (fun _ => .parseError) 404).2.2.2.2 (by decide)⟩

/-! ## Claim C10: the socket listener registry -/

/-- Claim C10 counterexample: `off` removes every occurrence equal to the given
callback, so registering an already-registered callback and then deregistering it
does not restore the prior listener list: starting from the list `[f]` (here
`f = 0`), `on` then `off` yields `[]`, not `[f]`. -/
theorem offRemovesDuplicates :
    socketOff (socketOn (socketOn (fun _ => ([] : List Nat)) "cart_updated" 0)
        "cart_updated" 0) "cart_updated" 0 "cart_updated" = [] ∧
    socketOn (fun _ => ([] : List Nat)) "cart_updated" 0 "cart_updated" = [0] ∧
    ([] : List Nat) ≠ [0] := by
  refine ⟨?_, ?_, by simp⟩ <;> simp [socketOn, socketOff]

/-- Claim C10 (amended): triggering an event invokes exactly the registered
callbacks in registration order (a fresh registration is invoked exactly once
more, after the earlier ones); `on` followed by `off` with the identical function
value restores the prior listener map provided the callback was not already
registered; `off` with a function value that is not registered (e.g. a freshly
created function of the same text) removes nothing, and every other registered
callback is still invoked on the next trigger. -/
theorem listenerRegistry {C : Type} [DecidableEq C] (L : String → List C)
    (e x : String) (f g : C) :
    triggerListeners (socketOn L e f) e = triggerListeners L e ++ [f] ∧
    (f ∉ L e → socketOff (socketOn L e f) e f x = L x) ∧
    (g ∉ L e → socketOff L e g e = L e) ∧
    (∀ c, c ∈ L e → c ≠ g → c ∈ triggerListeners (socketOff L e g) e) := by
  refine ⟨?_, ?_, ?_, ?_⟩
  · simp [triggerListeners, socketOn]
  · intro hf
    by_cases hx : x = e
    · subst hx
      simp only [socketOff, socketOn, List.filter_append]
      simp
      intro a ha haf
      exact hf (haf ▸ ha)
    · simp [socketOff, socketOn, hx]
  · intro hg
    simp [socketOff]
    intro a ha hag
    exact hg (hag ▸ ha)
  · intro c hc hcg
    have hmem : c ∈ (L e).filter (fun cb => decide (cb ≠ g)) := by
      rw [List.mem_filter]
      exact ⟨hc, by simpa using hcg⟩
    simpa [triggerListeners, socketOff] using hmem

/-- Witness for claim C10: a callback registered on an empty registry is removed
again by `off` with the identical value. -/
theorem listenerRegistry_witness :
    ((0 : Nat) ∉ (fun _ : String => ([] : List Nat)) "product_scanned" ∧
      (1 : Nat) ∉ (fun _ : String => ([] : List Nat)) "product_scanned") ∧
    socketOff (socketOn (fun _ : String => ([] : List Nat)) "product_scanned" 0)
        "product_scanned" 0 "product_scanned" =
      (fun _ : String => ([] : List Nat)) "product_scanned" :=
  ⟨⟨by simp, by simp⟩,
    (listenerRegistry (fun _ => []) "product_scanned" "product_scanned" 0 1).2.1
      (by simp)⟩

end SmartCart
